import Mathlib

/-!
# ENGRAM — verification of the review engine against its specification

Shallow embedding of the parts of the ENGRAM codebase referenced by the
specification claims:

* the local SM-2 scheduling update performed by `reviewStore.submitReview`
  (frontend review store);
* the `AudioProcessor` audio-worklet turn detector (`processBuffer`,
  `floatToInt16`, the `port.onmessage` handler);
* the Dexie helper `getDueCards`;
* the `VoiceWebSocket.send` / `sendAudioChunk` guards;
* the ScriptProcessor float→int16 conversion in `VoiceControls.svelte`.

JavaScript `number` values are modelled as rationals (`ℚ`); `Math.floor`
is `Int.floor`; storing into an `Int16Array` truncates toward zero
(ECMAScript `ToInt16` on in-range values).  Timestamps are epoch
milliseconds (`ℤ`); the ISO-8601 strings compared by the code order
exactly as their epoch values do.
-/

namespace Engram

/-- The four review ratings of `ReviewRating` (packages/shared), in the
order of the array `['again', 'hard', 'good', 'easy']`. -/
inductive ReviewRating
  | again
  | hard
  | good
  | easy
deriving DecidableEq, Repr

/-- `['again', 'hard', 'good', 'easy'].indexOf(rating)` — the numeric
rating stored in a `LocalReview`. -/
def ratingIndex : ReviewRating → ℕ
  | .again => 0
  | .hard => 1
  | .good => 2
  | .easy => 3

/-- The scheduling fields of a `LocalCard` read and written by
`reviewStore.submitReview`: `interval`, `ease_factor`, `repetitions`.
`repetitions` is only ever compared to 0/1 and incremented, and the DB
column is `INTEGER`, so it is a natural number; `interval` and
`ease_factor` are JS numbers, modelled as `ℚ`. -/
structure LocalCardState where
  interval : ℚ
  ease_factor : ℚ
  repetitions : ℕ
deriving DecidableEq, Repr

/-- The three locals mutated by the `switch (rating)` in `submitReview`:
`newInterval`, `newEaseFactor`, `newRepetitions`.  `newInterval` is
always an integer (1, 4, 6, 10 or a `Math.floor` result). -/
structure SchedResult where
  newInterval : ℤ
  newEaseFactor : ℚ
  newRepetitions : ℕ
deriving DecidableEq, Repr

/-- The `switch (rating)` of `reviewStore.submitReview` (simplified SM-2).
Each branch mirrors the source:
* `again`:  `newInterval = 1; newRepetitions = 0;
  newEaseFactor = Math.max(1.3, newEaseFactor - 0.2)`;
* `hard`:   `newInterval = Math.max(1, Math.floor(interval * 0.8));
  newRepetitions++`;
* `good`:   `1` / `6` / `Math.floor(interval * newEaseFactor)` by
  `newRepetitions === 0 / === 1 / else`; `newRepetitions++`;
* `easy`:   `4` / `10` / `Math.floor(interval * newEaseFactor * 1.3)`;
  `newRepetitions++; newEaseFactor = Math.min(3.0, newEaseFactor + 0.1)`.
In the `good`/`easy` branches the interval is computed before
`newEaseFactor` is changed, so it uses the prior ease factor. -/
def scheduleUpdate (c : LocalCardState) (r : ReviewRating) : SchedResult :=
  match r with
  | .again =>
      { newInterval := 1
        newEaseFactor := max (13/10) (c.ease_factor - 2/10)
        newRepetitions := 0 }
  | .hard =>
      { newInterval := max 1 ⌊c.interval * (8/10)⌋
        newEaseFactor := c.ease_factor
        newRepetitions := c.repetitions + 1 }
  | .good =>
      { newInterval :=
          if c.repetitions = 0 then 1
          else if c.repetitions = 1 then 6
          else ⌊c.interval * c.ease_factor⌋
        newEaseFactor := c.ease_factor
        newRepetitions := c.repetitions + 1 }
  | .easy =>
      { newInterval :=
          if c.repetitions = 0 then 4
          else if c.repetitions = 1 then 10
          else ⌊c.interval * c.ease_factor * (13/10)⌋
        newEaseFactor := min 3 (c.ease_factor + 1/10)
        newRepetitions := c.repetitions + 1 }

/-- One day in milliseconds: `24 * 60 * 60 * 1000`. -/
def dayMs : ℤ := 24 * 60 * 60 * 1000

/-- `next_review = new Date(now.getTime() + newInterval * 24*60*60*1000)`
(epoch milliseconds). -/
def nextReviewMs (now : ℤ) (c : LocalCardState) (r : ReviewRating) : ℤ :=
  now + (scheduleUpdate c r).newInterval * dayMs

/-- The card state written back by `db.cards.update` in `submitReview`. -/
def submitReviewCard (c : LocalCardState) (r : ReviewRating) : LocalCardState :=
  { interval := ((scheduleUpdate c r).newInterval : ℚ)
    ease_factor := (scheduleUpdate c r).newEaseFactor
    repetitions := (scheduleUpdate c r).newRepetitions }

/-- A row of the local `reviews` table, restricted to the fields
`submitReview` writes that the claims mention: `card_id` and the numeric
`rating` (`['again','hard','good','easy'].indexOf(rating)`). -/
structure LocalReviewRec where
  card_id : ℕ
  rating : ℕ
deriving DecidableEq, Repr

/-- `recordReview(localReview)`: `db.reviews.add` appends the new review
row to the `reviews` table. -/
def recordReview (log : List LocalReviewRec) (cid : ℕ) (r : ReviewRating) :
    List LocalReviewRec :=
  log ++ [{ card_id := cid, rating := ratingIndex r }]

/-- The number of lapses recorded for a card: reviews of that card whose
stored numeric rating is 0 (i.e. rated `again`).  The card row itself
carries no lapse column; this is the count the review log maintains. -/
def lapseCount (log : List LocalReviewRec) (cid : ℕ) : ℕ :=
  (log.filter (fun rec => rec.card_id = cid && rec.rating = 0)).length

/-! ## AudioProcessor (audio worklet, turn detection)

The worklet's `process` loop copies samples into `this.buffer` and calls
`processBuffer` exactly when the buffer is full; `processBuffer` is
modelled as a function of the current state and the full buffer's
contents. -/

/-- ECMAScript `ToInt16` on an in-range value, i.e. what storing a JS
number into an `Int16Array` does before any wrap can occur: truncation
toward zero. -/
def jsTrunc (q : ℚ) : ℤ :=
  if q < 0 then ⌈q⌉ else ⌊q⌋

/-- One sample of `AudioProcessor.floatToInt16`:
`const sample = Math.max(-1, Math.min(1, float32Array[i]));
 int16Array[i] = sample < 0 ? sample * 0x8000 : sample * 0x7fff;`
(`0x8000 = 32768`, `0x7fff = 32767`). -/
def floatToInt16Sample (x : ℚ) : ℤ :=
  let sample := max (-1) (min 1 x)
  if sample < 0 then jsTrunc (sample * 32768) else jsTrunc (sample * 32767)

/-- `AudioProcessor.floatToInt16` applied to a whole buffer. -/
def floatToInt16 (xs : List ℚ) : List ℤ :=
  xs.map floatToInt16Sample

/-- One sample of the ScriptProcessor fallback in `VoiceControls.svelte`
(`startRecording`):
`pcmData[i] = Math.max(-32768, Math.min(32767, inputData[i] * 32768));`
followed by the `Int16Array` store. -/
def scriptProcessorSample (x : ℚ) : ℤ :=
  jsTrunc (max (-32768) (min 32767 (x * 32768)))

/-- `sum` accumulated by `calculateRMS`: Σ sᵢ². -/
def sumSquares (samples : List ℚ) : ℚ :=
  (samples.map (fun s => s * s)).sum

/-- The radicand of `calculateRMS`: `sum / samples.length`.
`calculateRMS` itself returns `Math.sqrt` of this. -/
def meanSquare (samples : List ℚ) : ℚ :=
  sumSquares samples / samples.length

/-- The speech classification `rms > this.vadThreshold` of
`processBuffer`, decided without square roots: for a mean square `m ≥ 0`,
`√m > θ ↔ θ < 0 ∨ θ² < m` (`isSpeechB_iff_sqrt` below proves this
equivalence against `Real.sqrt`). -/
def isSpeechB (samples : List ℚ) (θ : ℚ) : Bool :=
  decide (θ < 0) || decide (θ ^ 2 < meanSquare samples)

/-- The mutable fields of `AudioProcessor` relevant to turn detection
(the sample accumulation buffer and `bufferIndex` are handled by
`process` and are not part of `processBuffer`'s logic). -/
structure AudioProcessorState where
  bufferSize : ℕ
  vadThreshold : ℚ
  vadEnabled : Bool
  sampleRate : ℚ
  isRecording : Bool
  silentFrames : ℕ
  maxSilentFrames : ℕ
deriving DecidableEq, Repr

/-- The `AudioProcessor` constructor: options set `bufferSize`,
`vadThreshold`, `vadEnabled`; `sampleRate` comes from the worklet global;
`isRecording = true`, `silentFrames = 0`, and `maxSilentFrames` is the
hard-coded literal `30`. -/
def audioProcessorNew (bufferSize : ℕ) (vadThreshold : ℚ) (vadEnabled : Bool)
    (sampleRate : ℚ) : AudioProcessorState :=
  { bufferSize := bufferSize
    vadThreshold := vadThreshold
    vadEnabled := vadEnabled
    sampleRate := sampleRate
    isRecording := true
    silentFrames := 0
    maxSilentFrames := 30 }

/-- The constructor's default options: `bufferSize = 4096`,
`vadThreshold = 0.01`, `vadEnabled = true`, `sampleRate = 48000`. -/
def audioProcessorInit : AudioProcessorState :=
  audioProcessorNew 4096 (1/100) true 48000

/-- A message posted by `processBuffer` to the main thread: either
`{type:'silence', duration}` or `{type:'audio', buffer, isSpeech, rms}`.
The `rms` payload is carried as its square (`meanSquare`), the
square-root-free equivalent. -/
inductive WorkletMessage
  | silence (duration : ℚ)
  | audio (buffer : List ℤ) (isSpeech : Bool) (rmsSq : ℚ)
deriving DecidableEq, Repr

/-- Whether a posted message is an `'audio'` message. -/
def isAudioMsg : WorkletMessage → Bool
  | .audio _ _ _ => true
  | .silence _ => false

/-- `AudioProcessor.processBuffer`, line for line:
compute `rms`, classify `isSpeech = rms > vadThreshold`, update
`silentFrames` (reset on speech, increment on silence), then either post
`{type:'silence', duration: silentFrames * (bufferSize / sampleRate)}`
and return (dropping the buffer), or post the converted buffer as an
`'audio'` message.  Exactly one message is posted per call. -/
def processBuffer (st : AudioProcessorState) (buffer : List ℚ) :
    AudioProcessorState × WorkletMessage :=
  let isSpeech := isSpeechB buffer st.vadThreshold
  let silentFrames := if isSpeech then 0 else st.silentFrames + 1
  let st' := { st with silentFrames := silentFrames }
  if st.vadEnabled = true ∧ silentFrames > st.maxSilentFrames then
    (st', .silence ((silentFrames : ℚ) * ((st.bufferSize : ℚ) / st.sampleRate)))
  else
    (st', .audio (floatToInt16 buffer) isSpeech (meanSquare buffer))

/-- Feeding a sequence of full buffers through `processBuffer`,
collecting the posted messages in order. -/
def feed : AudioProcessorState → List (List ℚ) →
    AudioProcessorState × List WorkletMessage
  | st, [] => (st, [])
  | st, buf :: rest =>
      let step := processBuffer st buf
      let recur := feed step.1 rest
      (recur.1, step.2 :: recur.2)

/-- A message arriving on `this.port` from the main thread.  The handler
reads `event.data.type`, and for `'config'` only the `vadThreshold` and
`vadEnabled` fields; a sender may attach any other field (such as a new
`maxSilentFrames`), which the handler never reads. -/
structure InboundMessage where
  type : String
  vadThreshold : Option ℚ := none
  vadEnabled : Option Bool := none
  maxSilentFrames : Option ℕ := none
deriving DecidableEq, Repr

/-- The `this.port.onmessage` handler set by the constructor:
`'stop'` / `'start'` toggle `isRecording`; `'config'` updates
`vadThreshold` and/or `vadEnabled` when the message carries them;
anything else is ignored. -/
def onMessage (st : AudioProcessorState) (m : InboundMessage) :
    AudioProcessorState :=
  if m.type = "stop" then { st with isRecording := false }
  else if m.type = "start" then { st with isRecording := true }
  else if m.type = "config" then
    let st1 := match m.vadThreshold with
      | some θ => { st with vadThreshold := θ }
      | none => st
    match m.vadEnabled with
      | some e => { st1 with vadEnabled := e }
      | none => st1
  else st

/-! ## Local card store (`$lib/db`) -/

/-- The fields of a `LocalCard` row read by `getDueCards`, plus
`interval` (the card's stability in days) used by the spec's notion of
retrievability.  `next_review` is an ISO-8601 UTC string in the source;
those strings compare lexicographically exactly as their epoch values,
so it is modelled as epoch milliseconds. -/
structure DueCardRec where
  id : ℕ
  next_review : ℤ
  interval : ℚ
  deleted : Bool
deriving DecidableEq, Repr

/-- `getDueCards`:
`db.cards.filter((card) => !card._deleted && card.next_review <= now)
  .limit(limit).toArray()` — a filter over the table in stored order
followed by a limit.  No sorting is applied. -/
def getDueCards (cards : List DueCardRec) (now : ℤ) (limit : ℕ) :
    List DueCardRec :=
  ((cards.filter (fun c => !c.deleted && decide (c.next_review ≤ now))).take limit)

/-- Modelled from the spec: "Retrievability: modeled probability a card
would be correctly recalled right now, derived from stability and
elapsed time" — the code computes no retrievability, so the ordering
claim is judged against a canonical instance of the glossary's notion:
with stability `s = interval` days and overdue time
`t = max 0 (now - next_review)` milliseconds,
`R = s·dayMs / (s·dayMs + t)`: equal to 1 exactly at the due instant and
strictly decreasing in overdue time for fixed stability, as any
retrievability consistent with the glossary must be. -/
def retrievability (now : ℤ) (c : DueCardRec) : ℚ :=
  (c.interval * (dayMs : ℚ)) /
    (c.interval * (dayMs : ℚ) + ((max 0 (now - c.next_review) : ℤ) : ℚ))

/-! ## VoiceWebSocket -/

/-- The `readyState` of a browser `WebSocket` (`OPEN` is `opened` here,
`open` being a Lean keyword). -/
inductive ReadyState
  | connecting
  | opened
  | closing
  | closed
deriving DecidableEq, Repr

/-- The `VoiceWebSocket` field the send guards read: `this.ws`, which is
`null` or a socket with its `readyState`.  The class has no outbound
queue of any kind. -/
structure VoiceWebSocketState where
  ws : Option ReadyState
deriving DecidableEq, Repr

/-- A control message (`VoiceSessionMessage`), identified by its `type`
discriminant; the payload fields play no role in the send guards. -/
structure VoiceSessionMessage where
  type : String
deriving DecidableEq, Repr

/-- A frame actually handed to `WebSocket.send`: a serialized control
message (text) or an audio `ArrayBuffer` (binary). -/
inductive WireFrame
  | control (m : VoiceSessionMessage)
  | binary (chunk : List ℤ)
deriving DecidableEq, Repr

/-- `VoiceWebSocket.send`:
`if (this.ws?.readyState === WebSocket.OPEN) { this.ws.send(JSON.stringify(message)); }`
— returns the (unchanged) object state and the list of frames passed to
the underlying socket. -/
def send (st : VoiceWebSocketState) (m : VoiceSessionMessage) :
    VoiceWebSocketState × List WireFrame :=
  if st.ws = some .opened then (st, [.control m]) else (st, [])

/-- `VoiceWebSocket.sendAudioChunk`:
`if (this.ws?.readyState === WebSocket.OPEN) { this.ws.send(chunk); }`. -/
def sendAudioChunk (st : VoiceWebSocketState) (chunk : List ℤ) :
    VoiceWebSocketState × List WireFrame :=
  if st.ws = some .opened then (st, [.binary chunk]) else (st, [])

/-! ## Scheduler theorems -/

/-- C1 — counterexample.  The claim quantifies over every card state with
non-negative interval: at `interval = 0`, `repetitions = 2`,
`ease_factor = 5/2 ∈ [1.3, 3.0]` and rating `good`, the code computes
`newInterval = Math.floor(0 * 2.5) = 0`, which is not strictly positive,
and `next_review` equals `now` rather than lying at least one day after
it. -/
theorem C1_counterexample :
    ((0:ℚ) ≤ 0 ∧ (13:ℚ)/10 ≤ 5/2 ∧ (5:ℚ)/2 ≤ 3) ∧
    (scheduleUpdate ⟨0, 5/2, 2⟩ .good).newInterval = 0 ∧
    nextReviewMs 0 ⟨0, 5/2, 2⟩ .good = 0 := by
  refine ⟨⟨le_refl _, by norm_num, by norm_num⟩, ?_, ?_⟩ <;>
    norm_num [scheduleUpdate, nextReviewMs, dayMs]

/-- C1 — amended: for every card state with interval ≥ 1 (rather than
merely non-negative), non-negative repetitions and ease_factor in
[1.3, 3.0], and every rating, the scheduling update of
`reviewStore.submitReview` produces a strictly positive new interval and
a `next_review` at least one day (24·60·60·1000 ms) after `now`. -/
theorem submitReview_interval_pos (c : LocalCardState) (r : ReviewRating) (now : ℤ)
    (hI : 1 ≤ c.interval) (hEF : 13/10 ≤ c.ease_factor) (hEF3 : c.ease_factor ≤ 3) :
    1 ≤ (scheduleUpdate c r).newInterval ∧
    now + dayMs ≤ nextReviewMs now c r := by
  have h1 : 1 ≤ (scheduleUpdate c r).newInterval := by
    cases r with
    | again => simp [scheduleUpdate]
    | hard => simp only [scheduleUpdate]; exact le_max_left _ _
    | good =>
        simp only [scheduleUpdate]
        by_cases h0 : c.repetitions = 0
        · simp [h0]
        · by_cases h2 : c.repetitions = 1
          · simp [h0, h2]
          · simp only [if_neg h0, if_neg h2]
            rw [Int.le_floor]
            push_cast
            nlinarith
    | easy =>
        simp only [scheduleUpdate]
        by_cases h0 : c.repetitions = 0
        · simp [h0]
        · by_cases h2 : c.repetitions = 1
          · simp [h0, h2]
          · simp only [if_neg h0, if_neg h2]
            rw [Int.le_floor]
            push_cast
            nlinarith
  refine ⟨h1, ?_⟩
  have h2 : dayMs ≤ (scheduleUpdate c r).newInterval * dayMs :=
    le_mul_of_one_le_left (by norm_num [dayMs]) h1
  simpa [nextReviewMs] using by linarith

/-- C1 — witness for `submitReview_interval_pos` at interval 1, ease
factor 5/2, repetitions 0, rating `good`, `now = 0`. -/
theorem submitReview_interval_pos_witness :
    1 ≤ (scheduleUpdate ⟨1, 5/2, 0⟩ .good).newInterval ∧
    (0:ℤ) + dayMs ≤ nextReviewMs 0 ⟨1, 5/2, 0⟩ .good :=
  submitReview_interval_pos ⟨1, 5/2, 0⟩ .good 0
    (by norm_num) (by norm_num) (by norm_num)

/-- C2 — counterexample.  For the fixed prior state `interval = 10`,
`ease_factor = 5/2`, `repetitions = 1`, the code gives the rating `hard`
a larger new interval (`max(1, ⌊10·0.8⌋) = 8`) than the rating `good`
(the fixed second-repetition interval `6`), refuting
`good ≥ hard`. -/
theorem C2_counterexample :
    ((13:ℚ)/10 ≤ 5/2 ∧ (5:ℚ)/2 ≤ 3) ∧
    (scheduleUpdate ⟨10, 5/2, 1⟩ .good).newInterval
      < (scheduleUpdate ⟨10, 5/2, 1⟩ .hard).newInterval := by
  refine ⟨⟨by norm_num, by norm_num⟩, ?_⟩
  norm_num [scheduleUpdate]

/-- C2 — amended: the monotonicity `easy ≥ good ≥ hard` of the new
interval holds for a fixed prior state once the state is past the fixed
early-repetition table, i.e. when `repetitions ≥ 2` and `interval ≥ 1`
(for `repetitions ∈ {0, 1}` the `good`/`easy` intervals are the fixed
constants 1/6 resp. 4/10, which a large prior interval's `hard` result
can exceed). -/
theorem scheduleUpdate_rating_monotone (c : LocalCardState)
    (hI : 1 ≤ c.interval) (hEF : 13/10 ≤ c.ease_factor)
    (hEF3 : c.ease_factor ≤ 3) (hR : 2 ≤ c.repetitions) :
    (scheduleUpdate c .hard).newInterval ≤ (scheduleUpdate c .good).newInterval ∧
    (scheduleUpdate c .good).newInterval ≤ (scheduleUpdate c .easy).newInterval := by
  have h0 : c.repetitions ≠ 0 := by omega
  have h2 : c.repetitions ≠ 1 := by omega
  simp only [scheduleUpdate, if_neg h0, if_neg h2]
  refine ⟨max_le ?_ ?_, ?_⟩
  · rw [Int.le_floor]; push_cast; nlinarith
  · apply Int.floor_le_floor
    nlinarith
  · apply Int.floor_le_floor
    nlinarith

/-- C2 — witness for `scheduleUpdate_rating_monotone` at the state
`interval = 5`, `ease_factor = 2`, `repetitions = 2`. -/
theorem scheduleUpdate_rating_monotone_witness :
    (scheduleUpdate ⟨5, 2, 2⟩ .hard).newInterval
      ≤ (scheduleUpdate ⟨5, 2, 2⟩ .good).newInterval ∧
    (scheduleUpdate ⟨5, 2, 2⟩ .good).newInterval
      ≤ (scheduleUpdate ⟨5, 2, 2⟩ .easy).newInterval :=
  scheduleUpdate_rating_monotone ⟨5, 2, 2⟩
    (by norm_num) (by norm_num) (by norm_num) (by norm_num)

/-- C3 — confirmed: rating `again` appends a review with stored numeric
rating 0 to the reviews log, so the count of recorded lapses for the
card grows by exactly 1, and the card's `repetitions` counter is written
back as 0.  (The card row itself has no lapse column; the lapse count is
carried by the recorded reviews.) -/
theorem submitReview_again_lapse (log : List LocalReviewRec) (cid : ℕ)
    (c : LocalCardState) :
    lapseCount (recordReview log cid .again) cid = lapseCount log cid + 1 ∧
    (submitReviewCard c .again).repetitions = 0 := by
  constructor
  · simp [lapseCount, recordReview, ratingIndex, List.filter_append]
  · rfl

/-- C6 — confirmed: for ease_factor in [1.3, 3.0] and any rating, the
ease factor written back by `submitReview` stays in [1.3, 3.0]:
`again` floors `ease_factor - 0.2` at 1.3, `easy` caps
`ease_factor + 0.1` at 3.0, and `hard`/`good` leave it unchanged. -/
theorem submitReview_ease_bounded (c : LocalCardState) (r : ReviewRating)
    (h1 : 13/10 ≤ c.ease_factor) (h2 : c.ease_factor ≤ 3) :
    13/10 ≤ (scheduleUpdate c r).newEaseFactor ∧
    (scheduleUpdate c r).newEaseFactor ≤ 3 := by
  cases r with
  | again =>
      exact ⟨le_max_left _ _, max_le (by norm_num) (by linarith)⟩
  | hard => exact ⟨h1, h2⟩
  | good => exact ⟨h1, h2⟩
  | easy =>
      exact ⟨le_min (by linarith) (by linarith), min_le_left _ _⟩

/-- C6 — witness for `submitReview_ease_bounded` at ease factor 5/2,
rating `easy`. -/
theorem submitReview_ease_bounded_witness :
    13/10 ≤ (scheduleUpdate ⟨1, 5/2, 0⟩ .easy).newEaseFactor ∧
    (scheduleUpdate ⟨1, 5/2, 0⟩ .easy).newEaseFactor ≤ 3 :=
  submitReview_ease_bounded ⟨1, 5/2, 0⟩ .easy (by norm_num) (by norm_num)

/-! ## Turn-detector theorems -/

lemma sumSquares_nonneg (samples : List ℚ) : 0 ≤ sumSquares samples := by
  unfold sumSquares
  apply List.sum_nonneg
  intro x hx
  rw [List.mem_map] at hx
  obtain ⟨s, -, rfl⟩ := hx
  exact mul_self_nonneg s

lemma meanSquare_nonneg (samples : List ℚ) : 0 ≤ meanSquare samples :=
  div_nonneg (sumSquares_nonneg samples) (Nat.cast_nonneg _)

/-- `isSpeechB` agrees with the source's comparison
`Math.sqrt(sum / length) > threshold`: the square-root-free test decides
exactly `θ < √(meanSquare)` over the reals. -/
lemma isSpeechB_iff_sqrt (samples : List ℚ) (θ : ℚ) :
    isSpeechB samples θ = true ↔
    (θ : ℝ) < Real.sqrt ((meanSquare samples : ℚ) : ℝ) := by
  unfold isSpeechB
  rw [Bool.or_eq_true, decide_eq_true_eq, decide_eq_true_eq]
  rcases lt_or_le θ 0 with hθ | hθ
  · have h2 : (θ : ℝ) < Real.sqrt ((meanSquare samples : ℚ) : ℝ) :=
      lt_of_lt_of_le (by exact_mod_cast hθ) (Real.sqrt_nonneg _)
    simp [hθ, h2]
  · have hθ' : (0 : ℝ) ≤ (θ : ℝ) := by exact_mod_cast hθ
    rw [Real.lt_sqrt hθ']
    have hcast : θ ^ 2 < meanSquare samples ↔
        (θ : ℝ) ^ 2 < ((meanSquare samples : ℚ) : ℝ) := by
      constructor <;> intro h <;> exact_mod_cast h
    simp [not_lt.mpr hθ, hcast]

/-- The state after `processBuffer`: only `silentFrames` changes — reset
to 0 on a speech frame, incremented on a silent one. -/
lemma processBuffer_fst (st : AudioProcessorState) (buf : List ℚ) :
    (processBuffer st buf).1 =
      { st with silentFrames :=
          if isSpeechB buf st.vadThreshold then 0 else st.silentFrames + 1 } := by
  simp only [processBuffer]
  split <;> split <;> rfl

/-- Feeding only silent buffers leaves every field unchanged except
`silentFrames`, which grows by the number of buffers (both the forward
and the drop branch of `processBuffer` keep the incremented counter). -/
lemma feed_silent_fst (bufs : List (List ℚ)) (st : AudioProcessorState)
    (hsil : ∀ b ∈ bufs, isSpeechB b st.vadThreshold = false) :
    (feed st bufs).1 = { st with silentFrames := st.silentFrames + bufs.length } := by
  induction bufs generalizing st with
  | nil => simp [feed]
  | cons b rest ih =>
      have hb : isSpeechB b st.vadThreshold = false := hsil b (List.mem_cons_self _ _)
      have hrest : ∀ x ∈ rest, isSpeechB x st.vadThreshold = false :=
        fun x hx => hsil x (List.mem_cons_of_mem _ hx)
      have hfst : (processBuffer st b).1 =
          { st with silentFrames := st.silentFrames + 1 } := by
        rw [processBuffer_fst, hb]
        simp
      simp only [feed]
      rw [hfst, ih { st with silentFrames := st.silentFrames + 1 } hrest,
        List.length_cons]
      congr 1
      show st.silentFrames + 1 + rest.length = st.silentFrames + (rest.length + 1)
      omega

/-- C4 — counterexample.  Starting from the constructor's defaults, 30
all-silence buffers bring the consecutive-silence count to exactly
`maxSilentFrames = 30`; the next silent buffer makes the count exceed
the maximum.  The claim says the accumulated audio is then emitted as a
completed utterance and the counter reset, but the code posts no audio
message at that point and leaves the counter at 31. -/
theorem C4_counterexample :
    (feed audioProcessorInit (List.replicate 30 [0])).1
      = { audioProcessorInit with silentFrames := 30 } ∧
    isAudioMsg (processBuffer { audioProcessorInit with silentFrames := 30 } [0]).2
      = false ∧
    (processBuffer { audioProcessorInit with silentFrames := 30 } [0]).1.silentFrames
      = 31 := by
  refine ⟨?_, ?_, ?_⟩
  · rw [feed_silent_fst]
    · simp [audioProcessorInit, audioProcessorNew]
    · intro b hb
      rw [List.eq_of_mem_replicate hb]
      norm_num [isSpeechB, meanSquare, sumSquares, audioProcessorInit,
        audioProcessorNew]
  all_goals
    norm_num [processBuffer, audioProcessorInit, audioProcessorNew, isSpeechB,
      meanSquare, sumSquares, isAudioMsg]

/-- C4 — amended: once the consecutive silent-frame count exceeds
`maxSilentFrames` (with VAD enabled), `processBuffer` drops the buffer
and posts a `'silence'` message carrying the accumulated silence
duration instead of forwarding audio; the silence counter is not reset —
it keeps incrementing (it resets only on a speech frame, per
`processBuffer_fst`). -/
theorem processBuffer_silence_cutoff (st : AudioProcessorState) (buf : List ℚ)
    (hE : st.vadEnabled = true)
    (hS : isSpeechB buf st.vadThreshold = false)
    (hgt : st.silentFrames + 1 > st.maxSilentFrames) :
    processBuffer st buf =
      ({ st with silentFrames := st.silentFrames + 1 },
        .silence (((st.silentFrames + 1 : ℕ) : ℚ) *
          ((st.bufferSize : ℚ) / st.sampleRate))) := by
  simp [processBuffer, hS, hE, hgt]

/-- C4 — witness for `processBuffer_silence_cutoff` at the default state
with 30 silent frames counted and an all-zero buffer. -/
theorem processBuffer_silence_cutoff_witness :
    processBuffer { audioProcessorInit with silentFrames := 30 } [0] =
      ({ audioProcessorInit with silentFrames := 31 },
        .silence ((31 : ℚ) * ((4096 : ℚ) / 48000))) := by
  have h := processBuffer_silence_cutoff
    { audioProcessorInit with silentFrames := 30 } [0]
    rfl
    (by norm_num [isSpeechB, meanSquare, sumSquares, audioProcessorInit,
      audioProcessorNew])
    (by norm_num [audioProcessorInit, audioProcessorNew])
  simpa [audioProcessorInit, audioProcessorNew] using h

/-- C5 — counterexample.  A single all-silence buffer fed to the default
processor (VAD enabled, RMS `0 ≤ 0.01` threshold) IS forwarded to the
main thread as an `'audio'` message: the code only stops forwarding once
the consecutive-silence count exceeds `maxSilentFrames`, so all-silence
input is not dropped from the start. -/
theorem C5_counterexample :
    isSpeechB [0] audioProcessorInit.vadThreshold = false ∧
    audioProcessorInit.vadEnabled = true ∧
    (processBuffer audioProcessorInit [0]).2
      = .audio [0] false 0 := by
  refine ⟨?_, rfl, ?_⟩ <;>
    norm_num [processBuffer, audioProcessorInit, audioProcessorNew, isSpeechB,
      meanSquare, sumSquares, floatToInt16, floatToInt16Sample, jsTrunc,
      min_def, max_def]

/-- C5 — amended: feeding only silent buffers (VAD enabled) forwards
exactly the first `maxSilentFrames - silentFrames` of them as `'audio'`
messages and drops the rest: the number of audio messages is
`min n (maxSilentFrames - silentFrames)` for `n` silent buffers, not
zero. -/
theorem feed_silent_audio_count (bufs : List (List ℚ)) (st : AudioProcessorState)
    (hE : st.vadEnabled = true)
    (hsil : ∀ b ∈ bufs, isSpeechB b st.vadThreshold = false) :
    ((feed st bufs).2.filter isAudioMsg).length
      = min bufs.length (st.maxSilentFrames - st.silentFrames) := by
  induction bufs generalizing st with
  | nil => simp [feed]
  | cons b rest ih =>
      have hb : isSpeechB b st.vadThreshold = false := hsil b (List.mem_cons_self _ _)
      have hrest : ∀ x ∈ rest, isSpeechB x st.vadThreshold = false :=
        fun x hx => hsil x (List.mem_cons_of_mem _ hx)
      have hfst : (processBuffer st b).1 =
          { st with silentFrames := st.silentFrames + 1 } := by
        rw [processBuffer_fst, hb]
        simp
      have hihyp :
          ((feed { st with silentFrames := st.silentFrames + 1 } rest).2.filter
              isAudioMsg).length
            = min rest.length (st.maxSilentFrames - (st.silentFrames + 1)) :=
        ih { st with silentFrames := st.silentFrames + 1 } hE hrest
      simp only [feed]
      rw [hfst, List.filter_cons]
      by_cases hcut : st.silentFrames + 1 > st.maxSilentFrames
      · have hsnd : isAudioMsg (processBuffer st b).2 = false := by
          simp [processBuffer, hb, hE, hcut, isAudioMsg]
        rw [hsnd, if_neg (by simp), hihyp, List.length_cons]
        omega
      · have hsnd : isAudioMsg (processBuffer st b).2 = true := by
          simp only [processBuffer, hb]
          rw [if_neg (by simpa using fun _ => hcut)]
          rfl
        rw [if_pos hsnd, List.length_cons, hihyp, List.length_cons]
        omega

/-- C5 — witness for `feed_silent_audio_count`: one all-zero buffer fed
to the default processor yields one audio message,
`min 1 (30 - 0) = 1`. -/
theorem feed_silent_audio_count_witness :
    ((feed audioProcessorInit [[0]]).2.filter isAudioMsg).length
      = min [[(0 : ℚ)]].length
          (audioProcessorInit.maxSilentFrames - audioProcessorInit.silentFrames) :=
  feed_silent_audio_count [[0]] audioProcessorInit rfl
    (by
      intro b hb
      rw [List.mem_singleton] at hb
      subst hb
      norm_num [isSpeechB, meanSquare, sumSquares, audioProcessorInit,
        audioProcessorNew])

/-- C7 — counterexample.  A `'config'` message carrying a new
`maxSilentFrames` of 5 leaves the processor's `maxSilentFrames` at the
hard-coded 30, and subsequent end-of-turn detection still uses 30: with
11 consecutive silent frames (exceeding the requested max of 5) the next
silent buffer is still forwarded as audio rather than treated as past
the cutoff. -/
theorem C7_counterexample :
    (onMessage { audioProcessorInit with silentFrames := 10 }
        { type := "config", maxSilentFrames := some 5 }).maxSilentFrames = 30 ∧
    isAudioMsg
      (processBuffer
        (onMessage { audioProcessorInit with silentFrames := 10 }
          { type := "config", maxSilentFrames := some 5 }) [0]).2 = true := by
  have honm : onMessage { audioProcessorInit with silentFrames := 10 }
      { type := "config", maxSilentFrames := some 5 }
      = { audioProcessorInit with silentFrames := 10 } := by
    simp [onMessage]
  constructor
  · rw [honm]
    rfl
  · rw [honm]
    norm_num [processBuffer, audioProcessorInit, audioProcessorNew, isSpeechB,
      meanSquare, sumSquares, isAudioMsg]

/-- C7 — amended: the `'config'` message makes the VAD energy threshold
(and the VAD enable flag) take effect for subsequent frame
classification, but the maximum consecutive-silent-frame count is fixed
at construction (the literal 30) and no message of any kind changes it:
the handler reads only `vadThreshold` and `vadEnabled` from a config
message. -/
theorem config_updates_threshold_only (st : AudioProcessorState)
    (m : InboundMessage) (θ : ℚ) (e : Bool) (buf : List ℚ) :
    (onMessage st m).maxSilentFrames = st.maxSilentFrames ∧
    (onMessage st { type := "config", vadThreshold := some θ }).vadThreshold = θ ∧
    (onMessage st { type := "config", vadEnabled := some e }).vadEnabled = e ∧
    (processBuffer
        (onMessage st { type := "config", vadThreshold := some θ }) buf).1.silentFrames
      = (if isSpeechB buf θ then 0 else st.silentFrames + 1) := by
  refine ⟨?_, ?_, ?_, ?_⟩
  · simp only [onMessage]
    split_ifs
    · rfl
    · rfl
    · cases m.vadThreshold <;> cases m.vadEnabled <;> rfl
    · rfl
  · simp [onMessage]
  · simp [onMessage]
  · have honm : onMessage st { type := "config", vadThreshold := some θ }
        = { st with vadThreshold := θ } := by simp [onMessage]
    rw [honm, processBuffer_fst]

/-! ## Due-card query theorems -/

/-- C8 — counterexample.  Two due cards in table order: card 0 exactly
due `now` (retrievability 1) and card 1 a full day overdue
(retrievability 1/2).  `getDueCards` returns them in table order —
descending retrievability — so the result is not ordered by ascending
retrievability (the claim would require card 1 first). -/
theorem C8_counterexample :
    getDueCards [⟨0, 0, 1, false⟩, ⟨1, -86400000, 1, false⟩] 0 10
      = [⟨0, 0, 1, false⟩, ⟨1, -86400000, 1, false⟩] ∧
    retrievability 0 ⟨1, -86400000, 1, false⟩
      < retrievability 0 ⟨0, 0, 1, false⟩ := by
  constructor
  · simp [getDueCards]
  · norm_num [retrievability, dayMs]

/-- C8 — amended: `getDueCards(N)` returns at most `N` cards, every
returned card is not soft-deleted and has `next_review` at or before
`now`, and the cards come back in the table's stored order (the result
is a sublist of the table) — the query applies no retrievability
ordering. -/
theorem getDueCards_limit_filter_order (cards : List DueCardRec) (now : ℤ)
    (limit : ℕ) :
    (getDueCards cards now limit).length ≤ limit ∧
    (∀ c ∈ getDueCards cards now limit, c.deleted = false ∧ c.next_review ≤ now) ∧
    (getDueCards cards now limit).Sublist cards := by
  refine ⟨List.length_take_le _ _, ?_, ?_⟩
  · intro c hc
    have hc' := List.mem_of_mem_take hc
    rw [List.mem_filter] at hc'
    obtain ⟨-, h⟩ := hc'
    simpa using h
  · exact (List.take_sublist _ _).trans (List.filter_sublist _)

/-! ## PCM conversion theorem -/

/-- Truncation toward zero lies between any integer bounds that bracket
the rational being truncated. -/
lemma jsTrunc_bounds {a b : ℤ} {q : ℚ} (ha : (a : ℚ) ≤ q) (hb : q ≤ (b : ℚ)) :
    a ≤ jsTrunc q ∧ jsTrunc q ≤ b := by
  unfold jsTrunc
  split_ifs with h
  · exact ⟨by exact_mod_cast le_trans ha (Int.le_ceil q), Int.ceil_le.mpr hb⟩
  · exact ⟨Int.le_floor.mpr ha, by exact_mod_cast le_trans (Int.floor_le q) hb⟩

/-- C9 — confirmed: both float→int16 conversions (the worklet's
`floatToInt16` and the ScriptProcessor fallback in `startRecording`)
clamp every input sample — including values outside [-1, 1] — and
produce an integer in the signed 16-bit range [-32768, 32767]. -/
theorem pcm_conversion_in_int16_range (x : ℚ) :
    (-32768 ≤ floatToInt16Sample x ∧ floatToInt16Sample x ≤ 32767) ∧
    (-32768 ≤ scriptProcessorSample x ∧ scriptProcessorSample x ≤ 32767) := by
  constructor
  · simp only [floatToInt16Sample]
    have hs1 : (-1 : ℚ) ≤ max (-1) (min 1 x) := le_max_left _ _
    have hs2 : max (-1) (min 1 x) ≤ 1 := max_le (by norm_num) (min_le_left _ _)
    split_ifs with h
    · have := jsTrunc_bounds (a := -32768) (b := 32767)
        (q := max (-1) (min 1 x) * 32768) (by push_cast; nlinarith) (by push_cast; nlinarith)
      exact this
    · have := jsTrunc_bounds (a := -32768) (b := 32767)
        (q := max (-1) (min 1 x) * 32767) (by push_cast; nlinarith) (by push_cast; nlinarith)
      exact this
  · unfold scriptProcessorSample
    have h1 : (-32768 : ℚ) ≤ max (-32768) (min 32767 (x * 32768)) := le_max_left _ _
    have h2 : max (-32768) (min 32767 (x * 32768)) ≤ 32767 :=
      max_le (by norm_num) (min_le_left _ _)
    exact jsTrunc_bounds (by push_cast; linarith) (by push_cast; linarith)

/-! ## WebSocket send-guard theorem -/

/-- C10 — confirmed: `VoiceWebSocket.send` and `sendAudioChunk` hand a
frame to the underlying socket exactly when `this.ws` exists and its
`readyState` is `OPEN`; in every other state they return with the object
unchanged and nothing transmitted — no error, no queue (the class holds
no outbound queue), the data is discarded. -/
theorem send_transmits_only_when_open (st : VoiceWebSocketState)
    (m : VoiceSessionMessage) (chunk : List ℤ) :
    (st.ws = some .opened →
      send st m = (st, [.control m]) ∧
      sendAudioChunk st chunk = (st, [.binary chunk])) ∧
    (st.ws ≠ some .opened →
      send st m = (st, []) ∧ sendAudioChunk st chunk = (st, [])) := by
  constructor
  · intro h
    simp [send, sendAudioChunk, h]
  · intro h
    simp [send, sendAudioChunk, h]

end Engram
